import Mathlib

set_option maxRecDepth 40000

/-!
Shallow embedding of the AVR-LCD-4Bits driver (src/LCD.c, src/LCD.h).

The hardware-visible state is the 8-bit output port register `LCD_PORT`
(`PORTB`), the data-direction register `LCD_DDR` (`DDRB`), and a trace of
observable I/O events (port writes, read-modify-writes, DDR writes and busy
waits).  Every C statement touching the port, the DDR or the delay routines is
embedded as one primitive state transition that appends one event.
-/

/-- One observable hardware action.  `assign v` is a full port assignment
`LCD_PORT = v`; `orMask m v` is `LCD_PORT |= m` with resulting port value `v`;
`andNotMask m v` is `LCD_PORT &= ~m` with resulting port value `v`;
`ddrAssign v` is `LCD_DDR = v`; `delayMs`/`delayUs` are the busy waits. -/
inductive Event where
  | assign (v : Nat) : Event
  | orMask (m : Nat) (v : Nat) : Event
  | andNotMask (m : Nat) (v : Nat) : Event
  | ddrAssign (v : Nat) : Event
  | delayMs (n : Nat) : Event
  | delayUs (n : Nat) : Event
deriving DecidableEq

/-- The driver-visible machine state: the 8-bit LCD port, the 8-bit data
direction register, and the trace of events emitted so far. -/
structure LcdState where
  port : Nat
  ddr : Nat
  trace : List Event
deriving DecidableEq

/-- Reset state: both registers zero, empty trace. -/
def initState : LcdState := ⟨0, 0, []⟩

/-- `LCD_PORT = v` (an 8-bit register, so the value is truncated mod 256). -/
def portAssign (v : Nat) (s : LcdState) : LcdState :=
  { s with port := v % 256, trace := s.trace ++ [Event.assign (v % 256)] }

/-- `LCD_PORT |= m` for a mask `m < 256`. -/
def portOr (m : Nat) (s : LcdState) : LcdState :=
  { s with port := (s.port ||| m) % 256,
           trace := s.trace ++ [Event.orMask m ((s.port ||| m) % 256)] }

/-- `LCD_PORT &= ~m` for a mask `m < 256`; on the 8-bit register this is
a bitwise and with the byte-complement of `m`. -/
def portAndNot (m : Nat) (s : LcdState) : LcdState :=
  { s with port := s.port &&& (255 ^^^ m),
           trace := s.trace ++ [Event.andNotMask m (s.port &&& (255 ^^^ m))] }

/-- `LCD_DDR = v`. -/
def ddrWrite (v : Nat) (s : LcdState) : LcdState :=
  { s with ddr := v % 256, trace := s.trace ++ [Event.ddrAssign (v % 256)] }

/-- The blocking millisecond wait `_delay_ms(n)`. -/
def delay_ms (n : Nat) (s : LcdState) : LcdState :=
  { s with trace := s.trace ++ [Event.delayMs n] }

/-- The blocking microsecond wait `_delay_us(n)`. -/
def delay_us (n : Nat) (s : LcdState) : LcdState :=
  { s with trace := s.trace ++ [Event.delayUs n] }

/-- Pin numbers from LCD.h. -/
def LCD_RS : Nat := 0
/-- Read/write control pin (LCD.h). -/
def LCD_RW : Nat := 2
/-- Enable control pin (LCD.h). -/
def LCD_EN : Nat := 1
/-- Data pin DB4 (LCD.h). -/
def LCD_DB4 : Nat := 4
/-- Data pin DB5 (LCD.h). -/
def LCD_DB5 : Nat := 5
/-- Data pin DB6 (LCD.h). -/
def LCD_DB6 : Nat := 6
/-- Data pin DB7 (LCD.h). -/
def LCD_DB7 : Nat := 7

/-- Clear-display command byte (LCD.h). -/
def LCD_CLR : Nat := 0x01
/-- Return-home command byte (LCD.h). -/
def LCD_HOME : Nat := 0x02
/-- Display-on command byte (LCD.h). -/
def LCD_ON : Nat := 0x0C
/-- Display-off command byte (LCD.h). -/
def LCD_OFF : Nat := 0x08
/-- Line-1 base DDRAM address (LCD.h). -/
def LCD_LINE1 : Nat := 0x80
/-- Line-2 base DDRAM address (LCD.h). -/
def LCD_LINE2 : Nat := 0xC0

/-- `lcd_enable_signal` (LCD.c): raise EN, wait 1 ms, drop EN; the falling
edge latches the currently driven nibble. -/
def lcd_enable_signal (s : LcdState) : LcdState :=
  let s := portOr (1 <<< LCD_EN) s
  let s := delay_ms 1 s
  portAndNot (1 <<< LCD_EN) s

/-- `lcd_cmd_signal` (LCD.c): clear RW and RS, then pulse enable. -/
def lcd_cmd_signal (s : LcdState) : LcdState :=
  let s := portAndNot ((1 <<< LCD_RW) ||| (1 <<< LCD_RS)) s
  lcd_enable_signal s

/-- `lcd_data_signal` (LCD.c): clear RW, set RS, then pulse enable. -/
def lcd_data_signal (s : LcdState) : LcdState :=
  let s := portAndNot (1 <<< LCD_RW) s
  let s := portOr (1 <<< LCD_RS) s
  lcd_enable_signal s

/-- The high-nibble bus mask built by `lcd_cmd` (LCD.c line 132): each of
bits 4-7 of the command is tested with `(command & k) >= 1` and the 0/1
result is shifted onto the corresponding data line. -/
def highMask (c : Nat) : Nat :=
  ((if 1 ≤ c &&& 16 then 1 else 0) <<< LCD_DB4) |||
  ((if 1 ≤ c &&& 32 then 1 else 0) <<< LCD_DB5) |||
  ((if 1 ≤ c &&& 64 then 1 else 0) <<< LCD_DB6) |||
  ((if 1 ≤ c &&& 128 then 1 else 0) <<< LCD_DB7)

/-- The low-nibble bus mask built by `lcd_cmd` (LCD.c line 139). -/
def lowMask (c : Nat) : Nat :=
  ((if 1 ≤ c &&& 1 then 1 else 0) <<< LCD_DB4) |||
  ((if 1 ≤ c &&& 2 then 1 else 0) <<< LCD_DB5) |||
  ((if 1 ≤ c &&& 4 then 1 else 0) <<< LCD_DB6) |||
  ((if 1 ≤ c &&& 8 then 1 else 0) <<< LCD_DB7)

/-- `lcd_cmd` (LCD.c): the parameter is `unsigned char`, so the value of any caller
arrives reduced mod 256; write the high-nibble mask, send the command signal,
write the low-nibble mask, send the command signal, wait 200 us. -/
def lcd_cmd (command : Nat) (s : LcdState) : LcdState :=
  let c := command % 256
  let s := portAssign (highMask c) s
  let s := lcd_cmd_signal s
  let s := portAssign (lowMask c) s
  let s := lcd_cmd_signal s
  delay_us 200 s

/-- The C bitwise and of a (promoted, twos-complement) `int` value with a
non-negative mask below 256, as in `aChar & 16`.  For a negative `a`, the
bits of `a` are the complemented bits of `-(a+1)`; the result is stated with
`Nat` operations so that it is kernel-computable, and `landC_eq_land` below
proves it agrees with the mathematical `Int.land` on this mask range. -/
def landC (a : Int) (m : Nat) : Nat :=
  match a with
  | Int.ofNat x => x &&& m
  | Int.negSucc x => (255 ^^^ (x &&& 255)) &&& m

/-- The high-nibble bus mask built by `lcd_putc` (LCD.c line 244); the
parameter is a (signed) `char`, promoted to `int` before the bitwise and,
and each of bits 4-7 is tested with `(aChar & k) >= 1`. -/
def putcHighMask (a : Int) : Nat :=
  ((if 1 ≤ landC a 16 then 1 else 0) <<< LCD_DB4) |||
  ((if 1 ≤ landC a 32 then 1 else 0) <<< LCD_DB5) |||
  ((if 1 ≤ landC a 64 then 1 else 0) <<< LCD_DB6) |||
  ((if 1 ≤ landC a 128 then 1 else 0) <<< LCD_DB7)

/-- The low-nibble bus mask built by `lcd_putc` (LCD.c line 251). -/
def putcLowMask (a : Int) : Nat :=
  ((if 1 ≤ landC a 1 then 1 else 0) <<< LCD_DB4) |||
  ((if 1 ≤ landC a 2 then 1 else 0) <<< LCD_DB5) |||
  ((if 1 ≤ landC a 4 then 1 else 0) <<< LCD_DB6) |||
  ((if 1 ≤ landC a 8 then 1 else 0) <<< LCD_DB7)

/-- `lcd_putc` (LCD.c): write the high-nibble mask, send the data signal,
write the low-nibble mask, send the data signal, wait 200 us. -/
def lcd_putc (aChar : Int) (s : LcdState) : LcdState :=
  let s := portAssign (putcHighMask aChar) s
  let s := lcd_data_signal s
  let s := portAssign (putcLowMask aChar) s
  let s := lcd_data_signal s
  delay_us 200 s

/-- `lcd_puts` (LCD.c): `while (*string > 0) lcd_putc(*string++);`.  The C
string is modelled as the list of `char` values before the NUL terminator. -/
def lcd_puts : List Int → LcdState → LcdState
  | [], s => s
  | c :: rest, s => if 0 < c then lcd_puts rest (lcd_putc c s) else s

/-- `lcd_xy` (LCD.c): dispatch on the row; rows other than 1 and 2 fall to
the empty `default` branch. -/
def lcd_xy (x y : Nat) (s : LcdState) : LcdState :=
  match y with
  | 1 => lcd_cmd (LCD_LINE1 + x) s
  | 2 => lcd_cmd (LCD_LINE2 + x) s
  | _ => s

/-- Character codes of the C literal `"Hello"`. -/
def helloChars : List Int := [72, 101, 108, 108, 111]

/-- Character codes of the C literal `"World!"`. -/
def worldChars : List Int := [87, 111, 114, 108, 100, 33]

/-- `lcd_init` (LCD.c): wait 17 ms, set all seven lines as outputs, send
commands 0x02, 0x28 and `LCD_ON`, then demo-write "Hello" at (4,1) and
"World!" at (6,2) and wait 300 ms. -/
def lcd_init (s : LcdState) : LcdState :=
  let s := delay_ms 17 s
  let s := ddrWrite ((1 <<< LCD_DB4) ||| (1 <<< LCD_DB5) ||| (1 <<< LCD_DB6) |||
      (1 <<< LCD_DB7) ||| (1 <<< LCD_RS) ||| (1 <<< LCD_RW) ||| (1 <<< LCD_EN)) s
  let s := lcd_cmd 0x02 s
  let s := lcd_cmd 0x28 s
  let s := lcd_cmd LCD_ON s
  let s := lcd_xy 4 1 s
  let s := lcd_puts helloChars s
  let s := lcd_xy 6 2 s
  let s := lcd_puts worldChars s
  delay_ms 300 s

/-- The events a routine emits when started from the reset state; every
routine here appends the same events from any start state (proved in the
run lemmas below). -/
def tr (f : LcdState → LcdState) : List Event := (f initState).trace

/-- The full-port assignments (the nibble mask-writes) in a trace. -/
def writes (t : List Event) : List Nat :=
  t.filterMap fun e =>
    match e with
    | Event.assign v => some v
    | _ => none

/-- The port value driven while the enable line is held high, for each
enable pulse in a trace. -/
def pulsePorts (t : List Event) : List Nat :=
  t.filterMap fun e =>
    match e with
    | Event.orMask m v => if m = 1 <<< LCD_EN then some v else none
    | _ => none

/-- The port value after each enable-line drop in a trace. -/
def pulseEnds (t : List Event) : List Nat :=
  t.filterMap fun e =>
    match e with
    | Event.andNotMask m v => if m = 1 <<< LCD_EN then some v else none
    | _ => none

/-- The register-select level during each enable pulse of a trace. -/
def rsLevels (t : List Event) : List Bool :=
  (pulsePorts t).map fun v => v.testBit LCD_RS

/-- The 4-bit value on data lines DB4-DB7 for a given port value. -/
def nibbleOf (v : Nat) : Nat := (v >>> 4) % 16

/-- Reassemble transmitted bytes from the successive nibble mask-writes:
the first write of a pair carries the high nibble, the second the low. -/
def pairBytes : List Nat → List Nat
  | hi :: lo :: rest => (nibbleOf hi * 16 + nibbleOf lo) :: pairBytes rest
  | _ => []

/-- The sequence of 8-bit values transmitted over the bus in a trace. -/
def bytesOf (t : List Event) : List Nat := pairBytes (writes t)

/-- The `char` (twos-complement) reading of a byte, as a C `char` holding
that bit pattern on AVR (signed, 8-bit). -/
def charOfByte (b : Nat) : Int := if b < 128 then (b : Int) else (b : Int) - 256

/-- Modelled from the spec: `lcd_clear_display` is declared in LCD.h (line 89)
but no definition exists in the sources.  Per the spec (section 4.2, "clear
alone" variant), it transmits the clear-display command `LCD_CLR` and then
waits a settle delay in the 5-50 ms window (the minimum, 5 ms, is used). -/
def lcd_clear_display (s : LcdState) : LcdState :=
  delay_ms 5 (lcd_cmd LCD_CLR s)

/-- The `LCD_DISPLAY` enum from LCD.h. -/
inductive LCD_DISPLAY where
  | off
  | on
deriving DecidableEq

/-- Enum values from LCD.h: `LCD_DISPLAY_OFF = 0x00`, `LCD_DISPLAY_ON = 0x0C`. -/
def LCD_DISPLAY.val : LCD_DISPLAY → Nat
  | LCD_DISPLAY.off => 0x00
  | LCD_DISPLAY.on => 0x0C

/-- The `LCD_CURSOR` enum from LCD.h. -/
inductive LCD_CURSOR where
  | off
  | on
deriving DecidableEq

/-- Enum values from LCD.h: `LCD_CURSOR_OFF = 0x00`, `LCD_CURSOR_ON = 0x0A`. -/
def LCD_CURSOR.val : LCD_CURSOR → Nat
  | LCD_CURSOR.off => 0x00
  | LCD_CURSOR.on => 0x0A

/-- The `LCD_BLINK` enum from LCD.h. -/
inductive LCD_BLINK where
  | off
  | on
deriving DecidableEq

/-- Enum values from LCD.h: `LCD_BLINK_OFF = 0x00`, `LCD_BLINK_ON = 0x09`. -/
def LCD_BLINK.val : LCD_BLINK → Nat
  | LCD_BLINK.off => 0x00
  | LCD_BLINK.on => 0x09

/-- Modelled from the spec: `lcd_display_control` is declared in LCD.h
(line 91) but no definition exists in the sources.  Per the spec (section
4.2), the three facet encodings are combined with bitwise OR and transmitted
as a single command. -/
def lcd_display_control (display_status : LCD_DISPLAY) (cursor_status : LCD_CURSOR)
    (cursor_blink : LCD_BLINK) (s : LcdState) : LcdState :=
  lcd_cmd (display_status.val ||| cursor_status.val ||| cursor_blink.val) s

/-- The C library call `sprintf(buffer, "%d", integer)` made by `lcd_putn`
(an external collaborator of the driver, modelled by its C contract): the
decimal digit characters of the non-negative promoted value, most
significant digit first. -/
def sprintf_u8 (n : Nat) : List Int := (Nat.toDigits 10 n).map fun ch => (ch.toNat : Int)

/-- `lcd_putn` (LCD.c): the parameter is a `ubyte`, so the value of any caller
arrives reduced mod 256; it is formatted with `sprintf "%d"` and the
resulting string is handed to `lcd_puts`. -/
def lcd_putn (integer : Nat) (s : LcdState) : LcdState :=
  lcd_puts (sprintf_u8 (integer % 256)) s

/-- Stated from the words of the spec for the refinement claim: the decimal text
representation of `n` — no sign, no padding, most significant digit first —
computed with an explicit fuel bound (`n` shrinks by a factor of 10 each
step, so fuel `n + 1` always suffices). -/
def decimalChars : Nat → Nat → List Int
  | 0, _ => []
  | fuel + 1, n =>
    if n < 10 then [48 + (n : Int)]
    else decimalChars fuel (n / 10) ++ [48 + ((n % 10 : Nat) : Int)]

/-- Decimal text representation of `n`, per the words of the spec. -/
def decimalText (n : Nat) : List Int := decimalChars (n + 1) n

/-- A routine appends a fixed event sequence — the one it emits from the
reset state — to whatever trace it starts from. -/
def Appends (f : LcdState → LcdState) : Prop :=
  ∀ s, (f s).trace = s.trace ++ tr f

lemma ldiff_eq_byte (x m : Nat) (hm : m < 256) :
    Nat.ldiff m x = (255 ^^^ (x &&& 255)) &&& m := by
  apply Nat.eq_of_testBit_eq
  intro i
  by_cases hi : i < 8
  · have h255 : (255 : Nat).testBit i = true := by interval_cases i <;> decide
    simp [Nat.testBit_ldiff, Nat.testBit_land, Nat.testBit_xor, h255, Bool.and_comm]
  · have hpow : (256 : Nat) ≤ 2 ^ i := by
      calc (256 : Nat) = 2 ^ 8 := by norm_num
      _ ≤ 2 ^ i := Nat.pow_le_pow_right (by norm_num) (le_of_not_lt hi)
    have h255 : (255 : Nat).testBit i = false :=
      Nat.testBit_eq_false_of_lt (lt_of_lt_of_le (by norm_num) hpow)
    have hm' : m.testBit i = false :=
      Nat.testBit_eq_false_of_lt (lt_of_lt_of_le hm hpow)
    simp [Nat.testBit_ldiff, Nat.testBit_land, Nat.testBit_xor, h255, hm']

lemma landC_eq_land (a : Int) (m : Nat) (hm : m < 256) :
    Int.land a (Int.ofNat m) = Int.ofNat (landC a m) := by
  match a with
  | Int.ofNat x => rfl
  | Int.negSucc x =>
    show (Nat.ldiff m x : Int) = _
    rw [ldiff_eq_byte x m hm]
    rfl

lemma lcd_cmd_run (b : Nat) (s : LcdState) :
    lcd_cmd b s = ⟨(lcd_cmd b initState).port, s.ddr, s.trace ++ tr (lcd_cmd b)⟩ := by
  simp [tr, lcd_cmd, lcd_cmd_signal, lcd_enable_signal, portAssign, portOr, portAndNot,
    delay_ms, delay_us, initState, LcdState.mk.injEq]

lemma lcd_putc_run (a : Int) (s : LcdState) :
    lcd_putc a s = ⟨(lcd_putc a initState).port, s.ddr, s.trace ++ tr (lcd_putc a)⟩ := by
  simp [tr, lcd_putc, lcd_data_signal, lcd_enable_signal, portAssign, portOr, portAndNot,
    delay_ms, delay_us, initState, LcdState.mk.injEq]

lemma appends_cmd (b : Nat) : Appends (lcd_cmd b) := fun s => by
  rw [lcd_cmd_run]

lemma appends_putc (a : Int) : Appends (lcd_putc a) := fun s => by
  rw [lcd_putc_run]

lemma appends_comp {f g : LcdState → LcdState} (hf : Appends f) (hg : Appends g) :
    Appends fun s => g (f s) := by
  intro s
  show (g (f s)).trace = s.trace ++ (g (f initState)).trace
  rw [hg (f s), hg (f initState), hf s, hf initState]
  simp [initState]

lemma appends_delay_ms (n : Nat) : Appends (delay_ms n) := fun s => by
  simp [delay_ms, tr, initState]

lemma appends_ddrWrite (v : Nat) : Appends (ddrWrite v) := fun s => by
  simp [ddrWrite, tr, initState]

lemma appends_puts (cs : List Int) : Appends (lcd_puts cs) := by
  induction cs with
  | nil => intro s; simp [lcd_puts, tr, initState]
  | cons c rest ih =>
    intro s
    by_cases h : (0 : Int) < c
    · have e : ∀ u, lcd_puts (c :: rest) u = lcd_puts rest (lcd_putc c u) := fun u => by
        simp [lcd_puts, h]
      rw [e s, ih (lcd_putc c s), appends_putc c s]
      simp only [tr]
      rw [e initState, ih (lcd_putc c initState), appends_putc c initState]
      simp [initState, tr]
    · have e : ∀ u, lcd_puts (c :: rest) u = u := fun u => by simp [lcd_puts, h]
      rw [e s, tr, e initState]
      simp [initState]

lemma appends_xy (x y : Nat) : Appends (lcd_xy x y) := by
  match y with
  | 1 => exact appends_cmd (LCD_LINE1 + x)
  | 2 => exact appends_cmd (LCD_LINE2 + x)
  | 0 => intro s; simp [lcd_xy, tr, initState]
  | n + 3 => intro s; simp [lcd_xy, tr, initState]

lemma appends_init : Appends lcd_init := by
  have h1 : Appends (fun s => ddrWrite
      ((1 <<< LCD_DB4) ||| (1 <<< LCD_DB5) ||| (1 <<< LCD_DB6) ||| (1 <<< LCD_DB7) |||
        (1 <<< LCD_RS) ||| (1 <<< LCD_RW) ||| (1 <<< LCD_EN)) (delay_ms 17 s)) :=
    appends_comp (appends_delay_ms 17) (appends_ddrWrite _)
  have h2 : Appends (fun s => lcd_cmd 0x02 (ddrWrite
      ((1 <<< LCD_DB4) ||| (1 <<< LCD_DB5) ||| (1 <<< LCD_DB6) ||| (1 <<< LCD_DB7) |||
        (1 <<< LCD_RS) ||| (1 <<< LCD_RW) ||| (1 <<< LCD_EN)) (delay_ms 17 s))) :=
    appends_comp h1 (appends_cmd 0x02)
  have h3 : Appends (fun s => lcd_cmd 0x28 (lcd_cmd 0x02 (ddrWrite
      ((1 <<< LCD_DB4) ||| (1 <<< LCD_DB5) ||| (1 <<< LCD_DB6) ||| (1 <<< LCD_DB7) |||
        (1 <<< LCD_RS) ||| (1 <<< LCD_RW) ||| (1 <<< LCD_EN)) (delay_ms 17 s)))) :=
    appends_comp h2 (appends_cmd 0x28)
  have h4 : Appends (fun s => lcd_cmd LCD_ON (lcd_cmd 0x28 (lcd_cmd 0x02 (ddrWrite
      ((1 <<< LCD_DB4) ||| (1 <<< LCD_DB5) ||| (1 <<< LCD_DB6) ||| (1 <<< LCD_DB7) |||
        (1 <<< LCD_RS) ||| (1 <<< LCD_RW) ||| (1 <<< LCD_EN)) (delay_ms 17 s))))) :=
    appends_comp h3 (appends_cmd LCD_ON)
  have h5 : Appends (fun s => lcd_xy 4 1 (lcd_cmd LCD_ON (lcd_cmd 0x28 (lcd_cmd 0x02 (ddrWrite
      ((1 <<< LCD_DB4) ||| (1 <<< LCD_DB5) ||| (1 <<< LCD_DB6) ||| (1 <<< LCD_DB7) |||
        (1 <<< LCD_RS) ||| (1 <<< LCD_RW) ||| (1 <<< LCD_EN)) (delay_ms 17 s)))))) :=
    appends_comp h4 (appends_xy 4 1)
  have h6 : Appends (fun s => lcd_puts helloChars (lcd_xy 4 1 (lcd_cmd LCD_ON (lcd_cmd 0x28
      (lcd_cmd 0x02 (ddrWrite
      ((1 <<< LCD_DB4) ||| (1 <<< LCD_DB5) ||| (1 <<< LCD_DB6) ||| (1 <<< LCD_DB7) |||
        (1 <<< LCD_RS) ||| (1 <<< LCD_RW) ||| (1 <<< LCD_EN)) (delay_ms 17 s))))))) :=
    appends_comp h5 (appends_puts helloChars)
  have h7 : Appends (fun s => lcd_xy 6 2 (lcd_puts helloChars (lcd_xy 4 1 (lcd_cmd LCD_ON
      (lcd_cmd 0x28 (lcd_cmd 0x02 (ddrWrite
      ((1 <<< LCD_DB4) ||| (1 <<< LCD_DB5) ||| (1 <<< LCD_DB6) ||| (1 <<< LCD_DB7) |||
        (1 <<< LCD_RS) ||| (1 <<< LCD_RW) ||| (1 <<< LCD_EN)) (delay_ms 17 s)))))))) :=
    appends_comp h6 (appends_xy 6 2)
  have h8 : Appends (fun s => lcd_puts worldChars (lcd_xy 6 2 (lcd_puts helloChars (lcd_xy 4 1
      (lcd_cmd LCD_ON (lcd_cmd 0x28 (lcd_cmd 0x02 (ddrWrite
      ((1 <<< LCD_DB4) ||| (1 <<< LCD_DB5) ||| (1 <<< LCD_DB6) ||| (1 <<< LCD_DB7) |||
        (1 <<< LCD_RS) ||| (1 <<< LCD_RW) ||| (1 <<< LCD_EN)) (delay_ms 17 s))))))))) :=
    appends_comp h7 (appends_puts worldChars)
  have h9 : Appends (fun s => delay_ms 300 (lcd_puts worldChars (lcd_xy 6 2 (lcd_puts helloChars
      (lcd_xy 4 1 (lcd_cmd LCD_ON (lcd_cmd 0x28 (lcd_cmd 0x02 (ddrWrite
      ((1 <<< LCD_DB4) ||| (1 <<< LCD_DB5) ||| (1 <<< LCD_DB6) ||| (1 <<< LCD_DB7) |||
        (1 <<< LCD_RS) ||| (1 <<< LCD_RW) ||| (1 <<< LCD_EN)) (delay_ms 17 s)))))))))) :=
    appends_comp h8 (appends_delay_ms 300)
  exact h9

lemma appends_clear : Appends lcd_clear_display := by
  have h : Appends (fun s => delay_ms 5 (lcd_cmd LCD_CLR s)) :=
    appends_comp (appends_cmd LCD_CLR) (appends_delay_ms 5)
  exact h

lemma lcd_puts_foldl (cs : List Int) (s : LcdState) :
    lcd_puts cs s = (cs.takeWhile fun c => decide (0 < c)).foldl (fun st c => lcd_putc c st) s := by
  induction cs generalizing s with
  | nil => rfl
  | cons c rest ih =>
    by_cases h : (0 : Int) < c
    · simp [lcd_puts, List.takeWhile_cons, h, ih]
    · simp [lcd_puts, List.takeWhile_cons, h]

/-- Claim C1: for every instruction class (Command via `lcd_cmd`, Data via
`lcd_putc`) and every 8-bit value, the transmit routine appends exactly two
data-nibble writes to the bus port — the high nibble (bits 4-7 of the value,
driven on DB4-DB7 as the mask `b / 16 * 16`) first and the low nibble (bits
0-3, as `b % 16 * 16`) second — and the register-select line holds the same
level during both enable pulses: 0 for a Command instruction and 1 for a
Data instruction. -/
theorem C1_transmit_two_writes_rs (b : Nat) (hb : b < 256) :
    (∀ s, (lcd_cmd b s).trace = s.trace ++ tr (lcd_cmd b)) ∧
    writes (tr (lcd_cmd b)) = [b / 16 * 16, b % 16 * 16] ∧
    rsLevels (tr (lcd_cmd b)) = [false, false] ∧
    (∀ s, (lcd_putc (charOfByte b) s).trace = s.trace ++ tr (lcd_putc (charOfByte b))) ∧
    writes (tr (lcd_putc (charOfByte b))) = [b / 16 * 16, b % 16 * 16] ∧
    rsLevels (tr (lcd_putc (charOfByte b))) = [true, true] := by
  have hd : ∀ n, n < 256 →
      writes (tr (lcd_cmd n)) = [n / 16 * 16, n % 16 * 16] ∧
      rsLevels (tr (lcd_cmd n)) = [false, false] ∧
      writes (tr (lcd_putc (charOfByte n))) = [n / 16 * 16, n % 16 * 16] ∧
      rsLevels (tr (lcd_putc (charOfByte n))) = [true, true] := by decide
  exact ⟨appends_cmd b, (hd b hb).1, (hd b hb).2.1, appends_putc (charOfByte b),
    (hd b hb).2.2.1, (hd b hb).2.2.2⟩

/-- Witness for C1 at the concrete byte 0x28. -/
theorem C1_witness : writes (tr (lcd_cmd 0x28)) = [0x28 / 16 * 16, 0x28 % 16 * 16] :=
  (C1_transmit_two_writes_rs 0x28 (by decide)).2.1

/-- Claim C2: for `lcd_cmd 0x28`, the first (high-nibble) port write drives
DB4=0, DB5=1, DB6=0, DB7=0 and the second (low-nibble) write drives DB4=0,
DB5=0, DB6=0, DB7=1; in general bit `4+i` of the value maps to data line
DB(4+i) in the high write and bit `i` maps to DB(4+i) in the low write. -/
theorem C2_bit_placement (b : Nat) (hb : b < 256) :
    ((writes (tr (lcd_cmd 0x28))).map fun v =>
        (v.testBit LCD_DB4, v.testBit LCD_DB5, v.testBit LCD_DB6, v.testBit LCD_DB7)) =
      [(false, true, false, false), (false, false, false, true)] ∧
    (∀ i, i < 4 → (highMask b).testBit (4 + i) = b.testBit (4 + i) ∧
      (lowMask b).testBit (4 + i) = b.testBit i) := by
  have hd : ∀ n, n < 256 → ∀ i, i < 4 →
      (highMask n).testBit (4 + i) = n.testBit (4 + i) ∧
      (lowMask n).testBit (4 + i) = n.testBit i := by decide
  exact ⟨by decide, hd b hb⟩

/-- Witness for C2 at byte 0x28 and bit index 1 (data line DB5). -/
theorem C2_witness :
    (highMask 0x28).testBit 5 = (0x28 : Nat).testBit 5 ∧
    (lowMask 0x28).testBit 5 = (0x28 : Nat).testBit 1 :=
  (C2_bit_placement 0x28 (by decide)).2 1 (by decide)

/-- Claim C3: `lcd_puts` traverses the string left to right, calling
`lcd_putc` once per character in order, stopping at the first character
whose value is at most 0; "AB" yields exactly two Data-class transmissions,
the character A (0x41) then the character B (0x42), and the empty string
yields none. -/
theorem C3_puts_traversal :
    (∀ cs s, lcd_puts cs s =
      (cs.takeWhile fun c => decide (0 < c)).foldl (fun st c => lcd_putc c st) s) ∧
    bytesOf (tr (lcd_puts [65, 66])) = [65, 66] ∧
    rsLevels (tr (lcd_puts [65, 66])) = [true, true, true, true] ∧
    (∀ s, lcd_puts [65, 66] s = lcd_putc 66 (lcd_putc 65 s)) ∧
    (∀ s, lcd_puts [] s = s) :=
  ⟨lcd_puts_foldl, by decide, by decide, fun s => rfl, fun s => rfl⟩

/-- Counterexample to C4 as stated: `lcd_xy 64 2` does not transmit the
byte `LCD_LINE2 + 64 = 0x100`; the sum wraps to an 8-bit value. -/
theorem C4_counterexample : ¬ bytesOf (tr (lcd_xy 64 2)) = [LCD_LINE2 + 64] := by
  decide

/-- Claim C4 (amended): `lcd_xy` with row 1 transmits exactly one Command
instruction with value `(LCD_LINE1 + column) mod 256` — equal to
`LCD_LINE1 + column` whenever that sum is below 256 — with row 2 likewise
from base `LCD_LINE2`, and with any other row transmits nothing and leaves
the state unchanged (silent no-op, no error). -/
theorem C4_amended (x y : Nat) (hx : x < 256) (hy : y < 256) :
    (y = 1 → ∀ s, lcd_xy x y s = lcd_cmd (LCD_LINE1 + x) s) ∧
    (y = 2 → ∀ s, lcd_xy x y s = lcd_cmd (LCD_LINE2 + x) s) ∧
    (y ≠ 1 → y ≠ 2 → ∀ s, lcd_xy x y s = s) ∧
    bytesOf (tr (lcd_xy x 1)) = [(LCD_LINE1 + x) % 256] ∧
    bytesOf (tr (lcd_xy x 2)) = [(LCD_LINE2 + x) % 256] ∧
    rsLevels (tr (lcd_xy x 1)) = [false, false] ∧
    rsLevels (tr (lcd_xy x 2)) = [false, false] := by
  have hd : ∀ n, n < 256 →
      bytesOf (tr (lcd_xy n 1)) = [(LCD_LINE1 + n) % 256] ∧
      bytesOf (tr (lcd_xy n 2)) = [(LCD_LINE2 + n) % 256] ∧
      rsLevels (tr (lcd_xy n 1)) = [false, false] ∧
      rsLevels (tr (lcd_xy n 2)) = [false, false] := by decide
  refine ⟨?_, ?_, ?_, (hd x hx).1, (hd x hx).2.1, (hd x hx).2.2.1, (hd x hx).2.2.2⟩
  · rintro rfl s; rfl
  · rintro rfl s; rfl
  · intro h1 h2 s
    match y with
    | 0 => rfl
    | 1 => exact absurd rfl h1
    | 2 => exact absurd rfl h2
    | n + 3 => rfl

/-- Witness for C4 (amended) at column 3, row 1: Command 0x83. -/
theorem C4_witness : bytesOf (tr (lcd_xy 3 1)) = [(LCD_LINE1 + 3) % 256] :=
  (C4_amended 3 1 (by decide) (by decide)).2.2.2.1

/-- Counterexample to C5 as stated: `lcd_init` never transmits the
clear-display command 0x01, and it performs Data-class transmissions (the
"Hello"/"World!" demo characters), so it does not "transmit nothing else". -/
theorem C5_counterexample :
    LCD_CLR ∉ bytesOf (tr lcd_init) ∧ true ∈ rsLevels (tr lcd_init) := by
  decide

/-- Claim C5 (amended): `lcd_init` waits 17 ms (at least 15), configures all
seven control and data lines as outputs in one DDR write (mask 0xF7), then
transmits Command 0x02 (4-bit-mode select), Command 0x28 (2-line, 5x8 font
function set) and Command 0x0C (display on, cursor and blink off), then
writes "Hello" at column 4 of row 1 and "World!" at column 6 of row 2 as
Data instructions, and finally waits 300 ms; there is no second settle wait
before the first command and no clear of the display. -/
theorem C5_amended :
    (∀ s, (lcd_init s).trace = s.trace ++ tr lcd_init) ∧
    (tr lcd_init).head? = some (Event.delayMs 17) ∧
    Event.ddrAssign 0xF7 ∈ tr lcd_init ∧
    bytesOf (tr lcd_init) = [0x02, 0x28, 0x0C,
      LCD_LINE1 + 4, 72, 101, 108, 108, 111, LCD_LINE2 + 6, 87, 111, 114, 108, 100, 33] ∧
    rsLevels (tr lcd_init) = [false, false, false, false, false, false, false, false,
      true, true, true, true, true, true, true, true, true, true,
      false, false,
      true, true, true, true, true, true, true, true, true, true, true, true] ∧
    (tr lcd_init).getLast? = some (Event.delayMs 300) :=
  ⟨appends_init, by decide, by decide, by decide, by decide, by decide⟩

/-- Claim C6 (modelled from the spec, the definition being absent from the
sources): `lcd_clear_display` transmits the clear-display command 0x01 as a
single Command instruction and then waits a settle delay of at least 5 ms
before returning. -/
theorem C6_clear :
    (∀ s, (lcd_clear_display s).trace = s.trace ++ tr lcd_clear_display) ∧
    bytesOf (tr lcd_clear_display) = [LCD_CLR] ∧
    rsLevels (tr lcd_clear_display) = [false, false] ∧
    ∃ d, (tr lcd_clear_display).getLast? = some (Event.delayMs d) ∧ 5 ≤ d :=
  ⟨appends_clear, by decide, by decide, 5, by decide, by decide⟩

/-- Claim C7 (the combining routine modelled from the spec, its definition
being absent from the sources; the facet encodings are the enums of LCD.h):
`lcd_display_control` transmits exactly one Command instruction whose value
is the bitwise OR of the three facet encodings, and every off-state encoding
is zero, while the on-states are 0x0C, 0x0A and 0x09. -/
theorem C7_display_control (d : LCD_DISPLAY) (c : LCD_CURSOR) (bl : LCD_BLINK) :
    (∀ s, lcd_display_control d c bl s = lcd_cmd (d.val ||| c.val ||| bl.val) s) ∧
    bytesOf (tr (lcd_display_control d c bl)) = [d.val ||| c.val ||| bl.val] ∧
    rsLevels (tr (lcd_display_control d c bl)) = [false, false] ∧
    LCD_DISPLAY.off.val = 0 ∧ LCD_CURSOR.off.val = 0 ∧ LCD_BLINK.off.val = 0 ∧
    LCD_DISPLAY.on.val = 0x0C ∧ LCD_CURSOR.on.val = 0x0A ∧ LCD_BLINK.on.val = 0x09 := by
  refine ⟨fun s => rfl, ?_, ?_, rfl, rfl, rfl, rfl, rfl, rfl⟩ <;>
    cases d <;> cases c <;> cases bl <;> decide

/-- Claim C8: for every `ubyte` value, `lcd_putn` produces exactly the same
behaviour as `lcd_puts` applied to the decimal text representation of the
value (no sign, no padding, most significant digit first). -/
theorem C8_putn_refines_decimal (n : Nat) (hn : n < 256) :
    (∀ s, lcd_putn n s = lcd_puts (decimalText n) s) ∧ sprintf_u8 n = decimalText n := by
  have hd : ∀ m, m < 256 → sprintf_u8 m = decimalText m := by decide
  constructor
  · intro s
    show lcd_puts (sprintf_u8 (n % 256)) s = _
    rw [Nat.mod_eq_of_lt hn, hd n hn]
  · exact hd n hn

/-- Witness for C8 at the value 42. -/
theorem C8_witness : sprintf_u8 42 = decimalText 42 :=
  (C8_putn_refines_decimal 42 (by decide)).2

/-- Claim C9: after every complete transmission (every return of `lcd_cmd`
and of `lcd_putc`, from any start state), the enable-line bit of the LCD
port is 0, and within the transmission each enable-line raise is matched by
an enable-line drop (two of each), every drop leaving the enable bit 0. -/
theorem C9_enable_low_after_return (b : Nat) (hb : b < 256) :
    (∀ s, (lcd_cmd b s).port.testBit LCD_EN = false) ∧
    (∀ s, (lcd_putc (charOfByte b) s).port.testBit LCD_EN = false) ∧
    (pulsePorts (tr (lcd_cmd b))).length = 2 ∧
    (pulseEnds (tr (lcd_cmd b))).length = 2 ∧
    (pulsePorts (tr (lcd_putc (charOfByte b)))).length = 2 ∧
    (pulseEnds (tr (lcd_putc (charOfByte b)))).length = 2 ∧
    (∀ v ∈ pulseEnds (tr (lcd_cmd b)), v.testBit LCD_EN = false) ∧
    (∀ v ∈ pulseEnds (tr (lcd_putc (charOfByte b))), v.testBit LCD_EN = false) := by
  have hd : ∀ n, n < 256 →
      (lcd_cmd n initState).port.testBit LCD_EN = false ∧
      (lcd_putc (charOfByte n) initState).port.testBit LCD_EN = false ∧
      (pulsePorts (tr (lcd_cmd n))).length = 2 ∧
      (pulseEnds (tr (lcd_cmd n))).length = 2 ∧
      (pulsePorts (tr (lcd_putc (charOfByte n)))).length = 2 ∧
      (pulseEnds (tr (lcd_putc (charOfByte n)))).length = 2 ∧
      (∀ v ∈ pulseEnds (tr (lcd_cmd n)), v.testBit LCD_EN = false) ∧
      (∀ v ∈ pulseEnds (tr (lcd_putc (charOfByte n))), v.testBit LCD_EN = false) := by
    decide
  refine ⟨fun s => ?_, fun s => ?_, (hd b hb).2.2.1, (hd b hb).2.2.2.1,
    (hd b hb).2.2.2.2.1, (hd b hb).2.2.2.2.2.1, (hd b hb).2.2.2.2.2.2.1,
    (hd b hb).2.2.2.2.2.2.2⟩
  · rw [lcd_cmd_run]
    exact (hd b hb).1
  · rw [lcd_putc_run]
    exact (hd b hb).2.1

/-- Witness for C9 at byte 1 and the reset state. -/
theorem C9_witness : (lcd_cmd 1 initState).port.testBit LCD_EN = false :=
  (C9_enable_low_after_return 1 (by decide)).1 initState

/-- Claim C10: the byte `lcd_xy` actually transmits is the row base address
plus the column, reduced mod 2^8, because `lcd_cmd` takes an 8-bit unsigned
parameter; whenever the sum reaches 256 it silently wraps — concretely,
row 2 with column 64 transmits 0x00 — with no range check on the column. -/
theorem C10_wraparound (x : Nat) (hx : x < 256) :
    bytesOf (tr (lcd_xy x 1)) = [(LCD_LINE1 + x) % 256] ∧
    bytesOf (tr (lcd_xy x 2)) = [(LCD_LINE2 + x) % 256] ∧
    (256 ≤ LCD_LINE2 + x → bytesOf (tr (lcd_xy x 2)) = [LCD_LINE2 + x - 256]) ∧
    bytesOf (tr (lcd_xy 64 2)) = [0] := by
  have hd : ∀ n, n < 256 →
      bytesOf (tr (lcd_xy n 1)) = [(LCD_LINE1 + n) % 256] ∧
      bytesOf (tr (lcd_xy n 2)) = [(LCD_LINE2 + n) % 256] ∧
      (256 ≤ LCD_LINE2 + n → bytesOf (tr (lcd_xy n 2)) = [LCD_LINE2 + n - 256]) ∧
      bytesOf (tr (lcd_xy 64 2)) = [0] := by decide
  exact hd x hx

/-- Witness for C10 at column 64, row 2 (the wrapping input). -/
theorem C10_witness : bytesOf (tr (lcd_xy 64 2)) = [0] :=
  (C10_wraparound 64 (by decide)).2.2.2
